import Mathlib

set_option maxRecDepth 20000

/-!
Verification of the process-supervision / event-broadcast core of
`src/server.py` (Voice-AI).

The module-level mutable state of `server.py` (the worker process handle,
`log_buffer`, `log_subscribers`, `tx_buffer`, `tx_subscribers`, and the
captured asyncio event loop) is embedded as an explicit `ServerState`
record, and each operation of the source (one iteration of the reader
thread's line loop, the end-of-output epilogue, `/start`, `/stop`,
subscription and the stream-serving loops of `/logs/stream` and
`/events/stream`) is embedded as a pure state-passing function.

Lines of text are `List Char`.  Python `str.rstrip()` / `str.strip()`
(no argument: strip whitespace) are modelled with `Char.isWhitespace`;
`marker in line` and `line.split(marker, 1)[1]` are modelled by
`splitAfterFirst`, which finds the first occurrence of the marker
anywhere in the line and returns the remainder after it.

`asyncio.Queue(maxsize=n)` with `put_nowait` scheduled from the reader
thread is modelled as a bounded list: a full queue silently drops the
item (the `QueueFull` raised inside the scheduled callback never reaches
the producer, so the net effect is drop-on-full).
-/

abbrev Line := List Char

/-- Python `str.rstrip()`: drop trailing whitespace (src/server.py line 57). -/
def rstripChars (l : Line) : Line :=
  (l.reverse.dropWhile Char.isWhitespace).reverse

/-- Python `str.strip()`: drop leading and trailing whitespace. -/
def stripChars (l : Line) : Line :=
  rstripChars (l.dropWhile Char.isWhitespace)

/-- Does `pat` occur at the very start of `l`? -/
def startsWithList : Line → Line → Bool
  | [], _ => true
  | _ :: _, [] => false
  | p :: ps, c :: cs => p == c && startsWithList ps cs

/-- Python `marker in line` together with `line.split(marker, 1)[1]`:
`some rest` when `marker` occurs in `l`, with `rest` the remainder after
the first occurrence; `none` when it does not occur. -/
def splitAfterFirst (marker : Line) : Line → Option Line
  | [] => if marker.isEmpty then some [] else none
  | c :: cs =>
    if startsWithList marker (c :: cs) then some ((c :: cs).drop marker.length)
    else splitAfterFirst marker cs

def markerUser : Line := "TRANSCRIPT_USER:".toList
def markerAgent : Line := "TRANSCRIPT_AGENT:".toList
def markerState : Line := "AGENT_STATE:".toList

/-- Transcript role, `"user"` / `"agent"` in the source's event dicts. -/
inductive Role
  | user
  | agent
  deriving DecidableEq

/-- A structured event on the events channel: either
`{"type": "transcript", "role": r, "text": t}` or
`{"type": "state", "state": s}`. -/
inductive TxEvent
  | transcript (role : Role) (text : Line)
  | state (label : Line)
  deriving DecidableEq

def stoppedLabel : Line := "stopped".toList

/-- The terminal event `{"type": "state", "state": "stopped"}` (line 82). -/
def stoppedEvent : TxEvent := TxEvent.state stoppedLabel

/-- A `subprocess.Popen` handle; `poll()` returns `None` while running. -/
inductive ProcHandle
  | running (pid : Nat)
  | exited (pid : Nat)
  deriving DecidableEq

/-- The module-level mutable state of `server.py` (lines 22, 37-41).
Subscriber registries are lists of (queue identity, queue contents).
`loopOpen` models `_loop` being captured and not closed. -/
structure ServerState where
  loopOpen : Bool
  agentProcess : Option ProcHandle
  logBuffer : List Line
  logSubscribers : List (Nat × List (Option Line))
  txBuffer : List TxEvent
  txSubscribers : List (Nat × List TxEvent)
  deriving DecidableEq

def initialState : ServerState :=
  { loopOpen := true, agentProcess := none, logBuffer := [],
    logSubscribers := [], txBuffer := [], txSubscribers := [] }

/-- `q.put_nowait(x)` on an `asyncio.Queue(maxsize=cap)`: appends when
there is room; on a full queue `QueueFull` is raised inside the event
loop callback and the item is dropped. -/
def put_nowait (cap : Nat) (q : List α) (x : α) : List α :=
  if q.length < cap then q ++ [x] else q

/-- `_fan_out(subscribers, payload)` (lines 44-51): no-op if the loop is
missing or closed, else a non-blocking enqueue into every registered
subscriber's queue. -/
def fan_out (loopOpen : Bool) (cap : Nat) (subs : List (Nat × List α)) (payload : α) :
    List (Nat × List α) :=
  if loopOpen then subs.map (fun s => (s.1, put_nowait cap s.2 payload)) else subs

/-- `if len(log_buffer) > 500: log_buffer = log_buffer[-500:]`
(lines 61-62). `lastN n l` is Python `l[-n:]`. -/
def lastN (n : Nat) (l : List α) : List α := l.drop (l.length - n)

def trimLog (buf : List Line) : List Line :=
  if buf.length > 500 then lastN 500 buf else buf

/-- The marker classification of one non-empty stripped line
(lines 65-79): first match wins in the order `TRANSCRIPT_USER:`,
`TRANSCRIPT_AGENT:`, `AGENT_STATE:`; matching is by occurrence anywhere
in the line (Python `in`), the payload is everything after the first
occurrence, `.strip()`ed; an empty transcript payload suppresses the
event (`if text:`).  Total: every line classifies, unmatched lines to
`none`. -/
def classifyTx (line : Line) : Option TxEvent :=
  match splitAfterFirst markerUser line with
  | some rest =>
    let text := stripChars rest
    if text.isEmpty then none else some (TxEvent.transcript Role.user text)
  | none =>
    match splitAfterFirst markerAgent line with
    | some rest =>
      let text := stripChars rest
      if text.isEmpty then none else some (TxEvent.transcript Role.agent text)
    | none =>
      match splitAfterFirst markerState line with
      | some rest => some (TxEvent.state (stripChars rest))
      | none => none

/-- The events-channel effect of one line (lines 65-79): a transcript
event is appended to `tx_buffer` and fanned out; a state event is only
fanned out, never buffered; otherwise nothing. -/
def processTx (st : ServerState) (line : Line) : ServerState :=
  match classifyTx line with
  | some (TxEvent.transcript r t) =>
    { st with
      txBuffer := st.txBuffer ++ [TxEvent.transcript r t],
      txSubscribers := fan_out st.loopOpen 200 st.txSubscribers (TxEvent.transcript r t) }
  | some (TxEvent.state s) =>
    { st with txSubscribers := fan_out st.loopOpen 200 st.txSubscribers (TxEvent.state s) }
  | none => st

/-- One iteration of the reader loop (lines 56-79): strip the raw line,
discard it if empty, else append it to the log history (trimmed to the
last 500), fan it out to the log subscribers, then run the marker
classification chain. -/
def processLine (st : ServerState) (raw : Line) : ServerState :=
  let line := rstripChars raw
  if line.isEmpty then st
  else
    processTx
      { st with
        logBuffer := trimLog (st.logBuffer ++ [line]),
        logSubscribers := fan_out st.loopOpen 500 st.logSubscribers (some line) }
      line

/-- The reader thread's epilogue after end-of-output (lines 81-82): a
`None` sentinel to every log subscriber and the terminal stopped event
to every events subscriber.  Neither touches the history buffers. -/
def readerFinish (st : ServerState) : ServerState :=
  { st with
    logSubscribers := fan_out st.loopOpen 500 st.logSubscribers none,
    txSubscribers := fan_out st.loopOpen 200 st.txSubscribers stoppedEvent }

/-- `_reader_thread` (lines 54-82) over the worker's whole output. -/
def reader_thread (st : ServerState) (rawLines : List Line) : ServerState :=
  readerFinish (rawLines.foldl processLine st)

/-- Registering a log subscriber (lines 285-286) and the backlog
snapshot it replays (line 289).  The claim contexts using this assume no
publish interleaves between registration and snapshot. -/
def subscribeLogs (st : ServerState) (qid : Nat) : ServerState × List Line :=
  ({ st with logSubscribers := st.logSubscribers ++ [(qid, [])] }, st.logBuffer)

/-- Registering an events subscriber (lines 311-312) and the backlog
snapshot it replays (line 315). -/
def subscribeEvents (st : ServerState) (qid : Nat) : ServerState × List TxEvent :=
  ({ st with txSubscribers := st.txSubscribers ++ [(qid, [])] }, st.txBuffer)

/-- How a stream exits: dequeued terminal item, client disconnect, or an
error escaping the loop.  The `finally` block runs on all of them. -/
inductive ExitReason
  | terminal
  | clientDisconnect
  | streamError
  deriving DecidableEq

/-- `if q in subscribers: subscribers.remove(q)`: remove the first
registry entry with this queue identity, no-op if absent. -/
def unsubscribeFirst (qid : Nat) (subs : List (Nat × List α)) : List (Nat × List α) :=
  subs.eraseP (fun s => s.1 == qid)

/-- The `finally` block of `stream_logs` (lines 301-303). -/
def streamLogsFinish ( _reason : ExitReason) (st : ServerState) (qid : Nat) : ServerState :=
  { st with logSubscribers := unsubscribeFirst qid st.logSubscribers }

/-- The `finally` block of `stream_events` (lines 326-328). -/
def streamEventsFinish ( _reason : ExitReason) (st : ServerState) (qid : Nat) : ServerState :=
  { st with txSubscribers := unsubscribeFirst qid st.txSubscribers }

/-- What one `await wait_for(q.get(), timeout=25)` step of a stream loop
observed: a dequeued item, or a timeout. -/
inductive QSig (α : Type)
  | item (a : α)
  | timeout
  deriving DecidableEq

/-- One output of the logs stream loop (lines 292-300): a data line, the
`"agent process exited"` sentinel line, or a `": ping"` keep-alive. -/
inductive LogOut
  | line (s : Line)
  | exitedSentinel
  | ping
  deriving DecidableEq

/-- The logs stream loop (lines 292-300) over a finite trace of queue
signals: a timeout yields a ping and continues; a dequeued `None` yields
the sentinel and breaks (`Bool` result: did the loop terminate); a
dequeued line is yielded and the loop continues. -/
def runLogsLoop : List (QSig (Option Line)) → List LogOut × Bool
  | [] => ([], false)
  | QSig.timeout :: rest =>
    let r := runLogsLoop rest
    (LogOut.ping :: r.1, r.2)
  | QSig.item none :: _ => ([LogOut.exitedSentinel], true)
  | QSig.item (some l) :: rest =>
    let r := runLogsLoop rest
    (LogOut.line l :: r.1, r.2)

/-- One output of the events stream loop: an event or a keep-alive. -/
inductive EvOut
  | ev (e : TxEvent)
  | ping
  deriving DecidableEq

/-- `ev.get("type") == "state" and ev.get("state") == "stopped"`
(line 322). -/
def isStoppedEv (e : TxEvent) : Bool :=
  match e with
  | TxEvent.state s => s == stoppedLabel
  | _ => false

/-- The events stream loop (lines 318-325): every dequeued event is
yielded; after yielding a stopped state event the loop breaks; a timeout
yields a ping and continues. -/
def runEventsLoop : List (QSig TxEvent) → List EvOut × Bool
  | [] => ([], false)
  | QSig.timeout :: rest =>
    let r := runEventsLoop rest
    (EvOut.ping :: r.1, r.2)
  | QSig.item e :: rest =>
    if isStoppedEv e then ([EvOut.ev e], true)
    else
      let r := runEventsLoop rest
      (EvOut.ev e :: r.1, r.2)

/-- `/start` request body (lines 96-99); only used by the source for
worker code generation, which is outside this model. -/
structure AgentConfig where
  instructions : Line
  voice : Line
  model : Line

inductive StartResult
  | alreadyRunning
  | started (pid : Nat)
  deriving DecidableEq

inductive StopResult
  | stopped
  | wasNotRunning
  deriving DecidableEq

/-- `agent_process and agent_process.poll() is None`. -/
def procIsRunning : Option ProcHandle → Bool
  | some (ProcHandle.running _) => true
  | _ => false

/-- `start_agent` (lines 229-266): reject when already running, else
clear both buffers and both subscriber registries and spawn exactly one
new worker (`newPid` models the pid of the `Popen` spawn). -/
def start_agent (st : ServerState) ( _config : AgentConfig) (newPid : Nat) :
    ServerState × StartResult :=
  if procIsRunning st.agentProcess then (st, StartResult.alreadyRunning)
  else
    ({ st with
        logBuffer := [], txBuffer := [], logSubscribers := [], txSubscribers := [],
        agentProcess := some (ProcHandle.running newPid) },
     StartResult.started newPid)

/-- `stop_agent` (lines 270-280): terminate and clear the handle when
running, else report "was not running" and change nothing. -/
def stop_agent (st : ServerState) : ServerState × StopResult :=
  if procIsRunning st.agentProcess then
    ({ st with agentProcess := none }, StopResult.stopped)
  else (st, StopResult.wasNotRunning)

/-! ### Helper lemmas -/

theorem processTx_logBuffer (st : ServerState) (line : Line) :
    (processTx st line).logBuffer = st.logBuffer := by
  unfold processTx
  rcases classifyTx line with _ | e
  · rfl
  · rcases e with ⟨r, t⟩ | s <;> rfl

theorem processTx_logSubscribers (st : ServerState) (line : Line) :
    (processTx st line).logSubscribers = st.logSubscribers := by
  unfold processTx
  rcases classifyTx line with _ | e
  · rfl
  · rcases e with ⟨r, t⟩ | s <;> rfl

theorem processTx_loopOpen (st : ServerState) (line : Line) :
    (processTx st line).loopOpen = st.loopOpen := by
  unfold processTx
  rcases classifyTx line with _ | e
  · rfl
  · rcases e with ⟨r, t⟩ | s <;> rfl

theorem processTx_agentProcess (st : ServerState) (line : Line) :
    (processTx st line).agentProcess = st.agentProcess := by
  unfold processTx
  rcases classifyTx line with _ | e
  · rfl
  · rcases e with ⟨r, t⟩ | s <;> rfl

/-- The events appended to `tx_buffer` by one classified line: the
transcript event when there is one, nothing otherwise. -/
def txAppend (line : Line) : List TxEvent :=
  match classifyTx line with
  | some (TxEvent.transcript r t) => [TxEvent.transcript r t]
  | _ => []

theorem processTx_txBuffer (st : ServerState) (line : Line) :
    (processTx st line).txBuffer = st.txBuffer ++ txAppend line := by
  unfold processTx txAppend
  rcases classifyTx line with _ | e
  · simp
  · rcases e with ⟨r, t⟩ | s <;> simp

theorem processLine_empty (st : ServerState) (raw : Line)
    (h : rstripChars raw = []) : processLine st raw = st := by
  unfold processLine
  simp [h]

theorem processLine_logBuffer (st : ServerState) (raw : Line)
    (h : rstripChars raw ≠ []) :
    (processLine st raw).logBuffer = trimLog (st.logBuffer ++ [rstripChars raw]) := by
  unfold processLine
  rw [if_neg (by simpa [List.isEmpty_iff] using h), processTx_logBuffer]

theorem processLine_logSubscribers (st : ServerState) (raw : Line)
    (h : rstripChars raw ≠ []) :
    (processLine st raw).logSubscribers
      = fan_out st.loopOpen 500 st.logSubscribers (some (rstripChars raw)) := by
  unfold processLine
  rw [if_neg (by simpa [List.isEmpty_iff] using h), processTx_logSubscribers]

theorem processLine_loopOpen (st : ServerState) (raw : Line) :
    (processLine st raw).loopOpen = st.loopOpen := by
  unfold processLine
  by_cases h : (rstripChars raw).isEmpty
  · simp [h]
  · rw [if_neg (by simpa using h), processTx_loopOpen]

theorem processLine_agentProcess (st : ServerState) (raw : Line) :
    (processLine st raw).agentProcess = st.agentProcess := by
  unfold processLine
  by_cases h : (rstripChars raw).isEmpty
  · simp [h]
  · rw [if_neg (by simpa using h), processTx_agentProcess]

theorem processLine_txBuffer (st : ServerState) (raw : Line) :
    (processLine st raw).txBuffer = st.txBuffer ++ txAppend (rstripChars raw) := by
  unfold processLine
  by_cases h : (rstripChars raw).isEmpty
  · rw [if_pos h]
    have : rstripChars raw = [] := by simpa [List.isEmpty_iff] using h
    simp [this, txAppend, classifyTx, splitAfterFirst, markerUser, markerAgent, markerState]
  · rw [if_neg h, processTx_txBuffer]

theorem lastN_length (n : Nat) (l : List α) :
    (lastN n l).length = min n l.length := by
  unfold lastN
  rw [List.length_drop]
  omega

theorem lastN_of_length_le (n : Nat) (l : List α) (h : l.length ≤ n) :
    lastN n l = l := by
  unfold lastN
  rw [Nat.sub_eq_zero_of_le h, List.drop_zero]

theorem trimLog_eq_lastN (buf : List Line) : trimLog buf = lastN 500 buf := by
  unfold trimLog
  by_cases h : buf.length > 500
  · rw [if_pos h]
  · rw [if_neg h, lastN_of_length_le _ _ (by omega)]

theorem lastN_append_lastN (n : Nat) (a b : List α) :
    lastN n (lastN n a ++ b) = lastN n (a ++ b) := by
  rcases le_or_lt a.length n with h | h
  · rw [lastN_of_length_le n a h]
  · have hlen : (lastN n a).length = n := by rw [lastN_length]; omega
    rcases le_or_lt b.length n with hb | hb
    · have idx1 : (lastN n a ++ b).length - n = b.length := by
        rw [List.length_append, hlen]; omega
      have idx2 : (a ++ b).length - n = a.length + b.length - n := by
        rw [List.length_append]
      show (lastN n a ++ b).drop ((lastN n a ++ b).length - n)
          = (a ++ b).drop ((a ++ b).length - n)
      rw [idx1, idx2, List.drop_append_of_le_length (by omega),
        List.drop_append_of_le_length (by omega)]
      show (a.drop (a.length - n)).drop b.length ++ b
          = a.drop (a.length + b.length - n) ++ b
      rw [List.drop_drop]
      have : a.length - n + b.length = a.length + b.length - n := by omega
      rw [this]
    · have idx1 : (lastN n a ++ b).length - n = (lastN n a).length + (b.length - n) := by
        rw [List.length_append, hlen]; omega
      have idx2 : (a ++ b).length - n = a.length + (b.length - n) := by
        rw [List.length_append]; omega
      show (lastN n a ++ b).drop ((lastN n a ++ b).length - n)
          = (a ++ b).drop ((a ++ b).length - n)
      rw [idx1, idx2, List.drop_append, List.drop_append]

theorem processTx_txSubscribers (st : ServerState) (line : Line) :
    (processTx st line).txSubscribers =
      match classifyTx line with
      | some e => fan_out st.loopOpen 200 st.txSubscribers e
      | none => st.txSubscribers := by
  unfold processTx
  rcases classifyTx line with _ | e
  · rfl
  · rcases e with ⟨r, t⟩ | s <;> rfl

theorem processLine_txSubscribers (st : ServerState) (raw : Line) :
    (processLine st raw).txSubscribers =
      match classifyTx (rstripChars raw) with
      | some e => fan_out st.loopOpen 200 st.txSubscribers e
      | none => st.txSubscribers := by
  unfold processLine
  by_cases h : (rstripChars raw).isEmpty
  · have he : rstripChars raw = [] := by simpa [List.isEmpty_iff] using h
    rw [if_pos h, he]
    have hc : classifyTx [] = none := by decide
    rw [hc]
  · rw [if_neg h, processTx_txSubscribers]

theorem foldl_loopOpen (lines : List Line) :
    ∀ st : ServerState, (lines.foldl processLine st).loopOpen = st.loopOpen := by
  induction lines with
  | nil => intro st; rfl
  | cons l rest ih => intro st; rw [List.foldl_cons, ih, processLine_loopOpen]

theorem foldl_logBuffer (lines : List Line) :
    ∀ st : ServerState, (∀ l ∈ lines, rstripChars l = l ∧ l ≠ []) →
    st.logBuffer.length ≤ 500 →
    (lines.foldl processLine st).logBuffer = lastN 500 (st.logBuffer ++ lines) := by
  induction lines with
  | nil =>
    intro st _ hle
    rw [List.foldl_nil, List.append_nil, lastN_of_length_le _ _ hle]
  | cons l rest ih =>
    intro st hall hle
    obtain ⟨hstrip, hne⟩ := hall l (List.mem_cons_self l rest)
    rw [List.foldl_cons]
    have hbuf : (processLine st l).logBuffer = lastN 500 (st.logBuffer ++ [l]) := by
      rw [processLine_logBuffer st l (by rw [hstrip]; exact hne), hstrip, trimLog_eq_lastN]
    have hlen : (processLine st l).logBuffer.length ≤ 500 := by
      rw [hbuf, lastN_length]; omega
    rw [ih (processLine st l) (fun x hx => hall x (List.mem_cons_of_mem _ hx)) hlen,
      hbuf, lastN_append_lastN, List.append_assoc, List.singleton_append]

theorem foldl_logSubscribers_nil (lines : List Line) :
    ∀ st : ServerState, st.logSubscribers = [] →
    (lines.foldl processLine st).logSubscribers = [] := by
  induction lines with
  | nil => intro st h; exact h
  | cons l rest ih =>
    intro st h
    rw [List.foldl_cons]
    apply ih
    by_cases he : rstripChars l = []
    · rw [processLine_empty st l he]; exact h
    · rw [processLine_logSubscribers st l he, h]
      unfold fan_out
      split <;> rfl

theorem foldl_single_logSub (lines : List Line) :
    ∀ (st : ServerState) (i : Nat) (q : List (Option Line)),
    (∀ l ∈ lines, rstripChars l = l ∧ l ≠ []) →
    st.loopOpen = true →
    st.logSubscribers = [(i, q)] →
    q.length + lines.length ≤ 500 →
    (lines.foldl processLine st).logSubscribers = [(i, q ++ lines.map some)] := by
  induction lines with
  | nil => intro st i q _ _ hsub _; simpa using hsub
  | cons l rest ih =>
    intro st i q hall hloop hsub hlen
    obtain ⟨hstrip, hne⟩ := hall l (List.mem_cons_self l rest)
    have hlen' : q.length + (rest.length + 1) ≤ 500 := by
      simpa [List.length_cons] using hlen
    have hqlt : q.length < 500 := by omega
    rw [List.foldl_cons]
    have hsub' : (processLine st l).logSubscribers = [(i, q ++ [some l])] := by
      rw [processLine_logSubscribers st l (by rw [hstrip]; exact hne), hsub, hloop, hstrip]
      simp [fan_out, put_nowait, hqlt]
    have hloop' : (processLine st l).loopOpen = true := by
      rw [processLine_loopOpen]; exact hloop
    rw [ih (processLine st l) i (q ++ [some l])
      (fun x hx => hall x (List.mem_cons_of_mem _ hx)) hloop' hsub'
      (by simp [List.length_append]; omega)]
    simp

def uxLine : Line := "TRANSCRIPT_USER: x".toList

theorem foldl_replicate_txBuffer_length (n : Nat) :
    ∀ st : ServerState,
    ((List.replicate n uxLine).foldl processLine st).txBuffer.length
      = st.txBuffer.length + n := by
  induction n with
  | zero => intro st; simp
  | succ k ih =>
    intro st
    rw [List.replicate_succ, List.foldl_cons, ih, processLine_txBuffer]
    have h : txAppend (rstripChars uxLine)
        = [TxEvent.transcript Role.user ("x".toList)] := by decide
    rw [h]
    simp [List.length_append]
    omega

/-- The server state after the reader has processed 201 transcript-marker
lines: 201 events have been published to the events channel. -/
def st201 : ServerState := (List.replicate 201 uxLine).foldl processLine initialState

/-- C1, counterexample.  The claim says the events history buffer never
holds more than 200 entries.  After processing 201 lines
`"TRANSCRIPT_USER: x"` the events history buffer `tx_buffer` holds 201
entries: the source trims `log_buffer` to its last 500 entries but never
trims `tx_buffer`, so the 200 bound is violated. -/
theorem C1_counterexample :
    st201.txBuffer.length = 201 ∧ 200 < st201.txBuffer.length := by
  have h : st201.txBuffer.length = 201 := by
    show ((List.replicate 201 uxLine).foldl processLine initialState).txBuffer.length = 201
    rw [foldl_replicate_txBuffer_length]
    rfl
  exact ⟨h, by omega⟩

/-- C1, as amended.  For every processed line: the log history buffer
stays within 500 entries; when it is at capacity 500 and a line is kept,
the oldest entry is evicted as the new line is appended; the events
history buffer is append-only (each line appends its transcript event or
nothing) — but, per the counterexample, it has no capacity bound at all,
so the claimed 200-entry cap on the events buffer does not hold. -/
theorem C1_amended (st : ServerState) (raw : Line)
    (hlen : st.logBuffer.length ≤ 500) :
    (processLine st raw).logBuffer.length ≤ 500 ∧
    (processLine st raw).txBuffer = st.txBuffer ++ txAppend (rstripChars raw) ∧
    (st.logBuffer.length = 500 → rstripChars raw ≠ [] →
      (processLine st raw).logBuffer = st.logBuffer.drop 1 ++ [rstripChars raw]) := by
  refine ⟨?_, processLine_txBuffer st raw, ?_⟩
  · by_cases h : rstripChars raw = []
    · rw [processLine_empty st raw h]; exact hlen
    · rw [processLine_logBuffer st raw h, trimLog_eq_lastN, lastN_length]
      omega
  · intro h500 hne
    rw [processLine_logBuffer st raw hne, trimLog_eq_lastN]
    show (st.logBuffer ++ [rstripChars raw]).drop
        ((st.logBuffer ++ [rstripChars raw]).length - 500) = _
    rw [List.length_append, h500]
    have h1 : 500 + ([rstripChars raw] : List Line).length - 500 = 1 := by simp
    rw [h1, List.drop_append_of_le_length (by omega)]

/-- A state whose log history buffer is exactly at its 500-entry cap. -/
def st500 : ServerState :=
  { initialState with logBuffer := List.replicate 500 ("a".toList) }

/-- C1, witness: the amended theorem applied at a buffer at capacity. -/
theorem C1_witness :
    (processLine st500 ("b".toList)).logBuffer.length ≤ 500 ∧
    (processLine st500 ("b".toList)).logBuffer
      = st500.logBuffer.drop 1 ++ ["b".toList] := by
  have hlen : st500.logBuffer.length = 500 := by
    show (List.replicate 500 ("a".toList)).length = 500
    rw [List.length_replicate]
  have h := C1_amended st500 ("b".toList) (le_of_eq hlen)
  refine ⟨h.1, ?_⟩
  have h2 := h.2.2 hlen (by decide)
  have hr : rstripChars ("b".toList) = "b".toList := by decide
  rw [hr] at h2
  exact h2

/-- A line on which prefix-classification and the source's
containment-classification disagree: no marker is a prefix, but the
user marker occurs inside the line. -/
def nonPrefixLine : Line := "x TRANSCRIPT_USER: hi".toList

/-- C2, counterexample.  The claim classifies by marker *prefix*, with
any other line yielding only a plain log event.  The source instead
tests `marker in line` (containment): the concrete line
`"x TRANSCRIPT_USER: hi"` starts with none of the three markers, yet
processing it appends a user transcript event to the events buffer. -/
theorem C2_counterexample :
    startsWithList markerUser nonPrefixLine = false ∧
    startsWithList markerAgent nonPrefixLine = false ∧
    startsWithList markerState nonPrefixLine = false ∧
    (processLine initialState nonPrefixLine).txBuffer
      = [TxEvent.transcript Role.user ("hi".toList)] := by
  refine ⟨by decide, by decide, by decide, by decide⟩

/-- C2, as amended.  Classification is by marker *containment* (Python
`in`), first match wins in the order user, agent, state, and the event
text is the trimmed remainder after the first occurrence of the marker
anywhere in the line.  Every kept line is delivered to the log channel
(history and live subscribers); lines containing no marker leave the
events channel untouched; parsing is total by construction
(`classifyTx` is a total function).  Lines in which a marker occurs as a
prefix are the special case of containment at position zero, so the
claim's concrete example `"TRANSCRIPT_USER: hello"` behaves exactly as
claimed (the witness instantiates it). -/
theorem C2_amended (st : ServerState) (raw : Line) (h : rstripChars raw ≠ []) :
    (processLine st raw).logBuffer = trimLog (st.logBuffer ++ [rstripChars raw]) ∧
    (processLine st raw).logSubscribers
      = fan_out st.loopOpen 500 st.logSubscribers (some (rstripChars raw)) ∧
    (∀ rest, splitAfterFirst markerUser (rstripChars raw) = some rest →
      stripChars rest ≠ [] →
      (processLine st raw).txBuffer
        = st.txBuffer ++ [TxEvent.transcript Role.user (stripChars rest)] ∧
      (processLine st raw).txSubscribers
        = fan_out st.loopOpen 200 st.txSubscribers
            (TxEvent.transcript Role.user (stripChars rest))) ∧
    (∀ rest, splitAfterFirst markerUser (rstripChars raw) = none →
      splitAfterFirst markerAgent (rstripChars raw) = some rest →
      stripChars rest ≠ [] →
      (processLine st raw).txBuffer
        = st.txBuffer ++ [TxEvent.transcript Role.agent (stripChars rest)] ∧
      (processLine st raw).txSubscribers
        = fan_out st.loopOpen 200 st.txSubscribers
            (TxEvent.transcript Role.agent (stripChars rest))) ∧
    (∀ rest, splitAfterFirst markerUser (rstripChars raw) = none →
      splitAfterFirst markerAgent (rstripChars raw) = none →
      splitAfterFirst markerState (rstripChars raw) = some rest →
      (processLine st raw).txBuffer = st.txBuffer ∧
      (processLine st raw).txSubscribers
        = fan_out st.loopOpen 200 st.txSubscribers
            (TxEvent.state (stripChars rest))) ∧
    (splitAfterFirst markerUser (rstripChars raw) = none →
      splitAfterFirst markerAgent (rstripChars raw) = none →
      splitAfterFirst markerState (rstripChars raw) = none →
      (processLine st raw).txBuffer = st.txBuffer ∧
      (processLine st raw).txSubscribers = st.txSubscribers) := by
  refine ⟨processLine_logBuffer st raw h, processLine_logSubscribers st raw h,
    ?_, ?_, ?_, ?_⟩
  · intro rest h1 h2
    have hc : classifyTx (rstripChars raw)
        = some (TxEvent.transcript Role.user (stripChars rest)) := by
      unfold classifyTx
      rw [h1]
      simp [List.isEmpty_iff, h2]
    constructor
    · rw [processLine_txBuffer]
      unfold txAppend
      rw [hc]
    · rw [processLine_txSubscribers, hc]
  · intro rest h0 h1 h2
    have hc : classifyTx (rstripChars raw)
        = some (TxEvent.transcript Role.agent (stripChars rest)) := by
      unfold classifyTx
      rw [h0, h1]
      simp [List.isEmpty_iff, h2]
    constructor
    · rw [processLine_txBuffer]
      unfold txAppend
      rw [hc]
    · rw [processLine_txSubscribers, hc]
  · intro rest h0 h1 h2
    have hc : classifyTx (rstripChars raw)
        = some (TxEvent.state (stripChars rest)) := by
      unfold classifyTx
      rw [h0, h1, h2]
    constructor
    · rw [processLine_txBuffer]
      unfold txAppend
      rw [hc]
      simp
    · rw [processLine_txSubscribers, hc]
  · intro h0 h1 h2
    have hc : classifyTx (rstripChars raw) = none := by
      unfold classifyTx
      rw [h0, h1, h2]
    constructor
    · rw [processLine_txBuffer]
      unfold txAppend
      rw [hc]
      simp
    · rw [processLine_txSubscribers, hc]

/-- The claim's concrete example line. -/
def uxHello : Line := "TRANSCRIPT_USER: hello".toList

/-- A server state with one live (empty-queue) subscriber on each
channel. -/
def exampleSt : ServerState :=
  { initialState with logSubscribers := [(0, [])], txSubscribers := [(1, [])] }

/-- C2, witness: publishing `"TRANSCRIPT_USER: hello"` delivers exactly
one event `{type: transcript, role: user, text: "hello"}` to the events
subscriber and the raw line to the logs subscriber. -/
theorem C2_witness :
    (processLine exampleSt uxHello).txSubscribers
      = [(1, [TxEvent.transcript Role.user ("hello".toList)])] ∧
    (processLine exampleSt uxHello).logSubscribers = [(0, [some uxHello])] := by
  have h := C2_amended exampleSt uxHello (by decide)
  constructor
  · rw [(h.2.2.1 (" hello".toList) (by decide) (by decide)).2]
    decide
  · rw [h.2.1]
    decide

/-- C3, counterexample.  The claim says a subscriber arriving after K
publishes receives a backlog of exactly `min(K, C)` events.  On the
events channel (spec capacity C = 200), after K = 201 published
transcript events the backlog replayed at subscribe time is the whole
untrimmed `tx_buffer`: 201 events, not `min 201 200 = 200`. -/
theorem C3_counterexample :
    ((subscribeEvents st201 0).2).length = 201 ∧
    min 201 200 = 200 ∧ (201 : Nat) ≠ 200 := by
  refine ⟨?_, rfl, by decide⟩
  show st201.txBuffer.length = 201
  show ((List.replicate 201 uxLine).foldl processLine initialState).txBuffer.length = 201
  rw [foldl_replicate_txBuffer_length]
  rfl

/-- C3, as amended.  On the logs channel (capacity 500) the claim holds:
a subscriber arriving after K kept lines receives a backlog of exactly
`min K 500` lines, the most recent 500 in oldest-first order, and then
every one of the subsequently published lines in order, with no
duplication and no gap at the boundary (stated for at most 500
subsequent lines, i.e. while the subscriber's bounded queue has room).
On the events channel, the backlog is the *entire* event history — per
the counterexample, not capped at 200. -/
theorem C3_amended (lines1 lines2 : List Line)
    (h1 : ∀ l ∈ lines1, rstripChars l = l ∧ l ≠ [])
    (h2 : ∀ l ∈ lines2, rstripChars l = l ∧ l ≠ [])
    (hlen2 : lines2.length ≤ 500) :
    ((subscribeLogs (lines1.foldl processLine initialState) 0).2).length
      = min lines1.length 500 ∧
    (subscribeLogs (lines1.foldl processLine initialState) 0).2
      = lastN 500 lines1 ∧
    (lines2.foldl processLine
        (subscribeLogs (lines1.foldl processLine initialState) 0).1).logSubscribers
      = [(0, lines2.map some)] := by
  have hbuf : (lines1.foldl processLine initialState).logBuffer = lastN 500 lines1 := by
    have h := foldl_logBuffer lines1 initialState h1 (by simp [initialState])
    simpa [initialState] using h
  refine ⟨?_, hbuf, ?_⟩
  · show (lines1.foldl processLine initialState).logBuffer.length = min lines1.length 500
    rw [hbuf, lastN_length, Nat.min_comm]
  · have hsub : ((subscribeLogs (lines1.foldl processLine initialState) 0).1).logSubscribers
        = [(0, [])] := by
      show (lines1.foldl processLine initialState).logSubscribers ++ [(0, [])] = [(0, [])]
      rw [foldl_logSubscribers_nil lines1 initialState rfl]
      rfl
    have hloop : ((subscribeLogs (lines1.foldl processLine initialState) 0).1).loopOpen
        = true := by
      show (lines1.foldl processLine initialState).loopOpen = true
      rw [foldl_loopOpen]
      rfl
    have h := foldl_single_logSub lines2
      ((subscribeLogs (lines1.foldl processLine initialState) 0).1) 0 [] h2 hloop hsub
      (by simpa using hlen2)
    simpa using h

/-- C3, witness: one line published before subscribing, one after. -/
theorem C3_witness :
    ((subscribeLogs ((["a".toList]).foldl processLine initialState) 0).2).length
      = min 1 500 ∧
    ((["b".toList]).foldl processLine
        (subscribeLogs ((["a".toList]).foldl processLine initialState) 0).1).logSubscribers
      = [(0, [some ("b".toList)])] := by
  have h := C3_amended ["a".toList] ["b".toList] (by decide) (by decide) (by decide)
  exact ⟨by simpa using h.1, by simpa using h.2.2⟩

/-- Does a queue-signal trace contain a dequeued stopped state event? -/
def hasStopSig (sigs : List (QSig TxEvent)) : Bool :=
  sigs.any (fun s => match s with
    | QSig.item e => isStoppedEv e
    | QSig.timeout => false)

/-- Is a stream output a stopped state event? -/
def isStopOut (o : EvOut) : Bool :=
  match o with
  | EvOut.ev e => isStoppedEv e
  | EvOut.ping => false

/-- Does a queue-signal trace contain the dequeued `None` sentinel? -/
def hasEndSig (sigs : List (QSig (Option Line))) : Bool :=
  sigs.any (fun s => match s with
    | QSig.item none => true
    | _ => false)

theorem runEventsLoop_terminates (sigs : List (QSig TxEvent)) :
    (runEventsLoop sigs).2 = hasStopSig sigs := by
  induction sigs with
  | nil => rfl
  | cons s rest ih =>
    rcases s with e | _
    · by_cases h : isStoppedEv e
      · simp [runEventsLoop, hasStopSig, h]
      · simp only [runEventsLoop, hasStopSig, List.any_cons, h, if_neg,
          Bool.false_or, if_false]
        simpa [hasStopSig] using ih
    · simp only [runEventsLoop, hasStopSig, List.any_cons, Bool.false_or]
      simpa [hasStopSig] using ih

theorem isStoppedEv_eq (e : TxEvent) (h : isStoppedEv e = true) :
    e = stoppedEvent := by
  rcases e with ⟨r, t⟩ | lbl
  · exact absurd h (by simp [isStoppedEv])
  · unfold isStoppedEv at h
    have := eq_of_beq h
    rw [this]
    rfl

theorem runEventsLoop_stop_once (sigs : List (QSig TxEvent)) :
    hasStopSig sigs = true →
    ∃ pre, (runEventsLoop sigs).1 = pre ++ [EvOut.ev stoppedEvent] ∧
      pre.countP isStopOut = 0 := by
  induction sigs with
  | nil => intro h; exact absurd h (by decide)
  | cons s rest ih =>
    intro h
    rcases s with e | _
    · by_cases he : isStoppedEv e
      · have he2 := isStoppedEv_eq e he
        refine ⟨[], ?_, rfl⟩
        subst he2
        simp [runEventsLoop, he]
      · have h' : hasStopSig rest = true := by
          simpa [hasStopSig, List.any_cons, he] using h
        obtain ⟨pre, hpre, hcount⟩ := ih h'
        refine ⟨EvOut.ev e :: pre, ?_, ?_⟩
        · simp [runEventsLoop, he, hpre]
        · simp [List.countP_cons, isStopOut, he, hcount]
    · have h' : hasStopSig rest = true := by
        simpa [hasStopSig, List.any_cons] using h
      obtain ⟨pre, hpre, hcount⟩ := ih h'
      refine ⟨EvOut.ping :: pre, ?_, ?_⟩
      · simp [runEventsLoop, hpre]
      · simp [List.countP_cons, isStopOut, hcount]

theorem runLogsLoop_terminates (sigs : List (QSig (Option Line))) :
    (runLogsLoop sigs).2 = hasEndSig sigs := by
  induction sigs with
  | nil => rfl
  | cons s rest ih =>
    rcases s with a | _
    · rcases a with _ | l
      · simp [runLogsLoop, hasEndSig]
      · simp only [runLogsLoop, hasEndSig, List.any_cons, Bool.false_or]
        simpa [hasEndSig] using ih
    · simp only [runLogsLoop, hasEndSig, List.any_cons, Bool.false_or]
      simpa [hasEndSig] using ih

theorem runLogsLoop_sentinel (sigs : List (QSig (Option Line))) :
    hasEndSig sigs = true →
    ∃ pre, (runLogsLoop sigs).1 = pre ++ [LogOut.exitedSentinel] := by
  induction sigs with
  | nil => intro h; exact absurd h (by decide)
  | cons s rest ih =>
    intro h
    rcases s with a | _
    · rcases a with _ | l
      · exact ⟨[], rfl⟩
      · have h' : hasEndSig rest = true := by
          simpa [hasEndSig, List.any_cons] using h
        obtain ⟨pre, hpre⟩ := ih h'
        exact ⟨LogOut.line l :: pre, by simp [runLogsLoop, hpre]⟩
    · have h' : hasEndSig rest = true := by
        simpa [hasEndSig, List.any_cons] using h
      obtain ⟨pre, hpre⟩ := ih h'
      exact ⟨LogOut.ping :: pre, by simp [runLogsLoop, hpre]⟩

/-- C4, as amended.  When the reader observes end-of-output it publishes
the terminal stopped event to the events channel and the `None` sentinel
to the logs channel; each live subscriber *whose bounded queue is not
full* has it enqueued (a full queue drops it — see the counterexample);
the events stream loop terminates exactly when a stopped event is
dequeued, yields it exactly once, as its final event output; the logs
stream loop terminates exactly when the sentinel is dequeued and ends
with the exit sentinel output. -/
theorem C4_amended (st : ServerState) (h : st.loopOpen = true) :
    ((readerFinish st).txSubscribers
      = st.txSubscribers.map (fun s => (s.1, put_nowait 200 s.2 stoppedEvent))) ∧
    ((readerFinish st).logSubscribers
      = st.logSubscribers.map (fun s => (s.1, put_nowait 500 s.2 (none : Option Line)))) ∧
    (∀ q : List TxEvent, q.length < 200 →
      put_nowait 200 q stoppedEvent = q ++ [stoppedEvent]) ∧
    (∀ sigs : List (QSig TxEvent), (runEventsLoop sigs).2 = hasStopSig sigs) ∧
    (∀ sigs : List (QSig TxEvent), hasStopSig sigs = true →
      ∃ pre, (runEventsLoop sigs).1 = pre ++ [EvOut.ev stoppedEvent] ∧
        pre.countP isStopOut = 0) ∧
    (∀ sigs : List (QSig (Option Line)), (runLogsLoop sigs).2 = hasEndSig sigs) ∧
    (∀ sigs : List (QSig (Option Line)), hasEndSig sigs = true →
      ∃ pre, (runLogsLoop sigs).1 = pre ++ [LogOut.exitedSentinel]) := by
  refine ⟨?_, ?_, ?_, runEventsLoop_terminates, runEventsLoop_stop_once,
    runLogsLoop_terminates, runLogsLoop_sentinel⟩
  · show fan_out st.loopOpen 200 st.txSubscribers stoppedEvent = _
    rw [h]
    rfl
  · show fan_out st.loopOpen 500 st.logSubscribers none = _
    rw [h]
    rfl
  · intro q hq
    unfold put_nowait
    rw [if_pos hq]

/-- A state with one live empty-queue subscriber on each channel. -/
def liveSt : ServerState :=
  { initialState with logSubscribers := [(0, [])], txSubscribers := [(1, [])] }

/-- C4, witness: with one live subscriber per channel, end-of-output
enqueues the stopped event / the sentinel to them. -/
theorem C4_witness :
    (readerFinish liveSt).txSubscribers = [(1, [stoppedEvent])] ∧
    (readerFinish liveSt).logSubscribers = [(0, [(none : Option Line)])] := by
  have h := C4_amended liveSt rfl
  constructor
  · rw [h.1]
    decide
  · rw [h.2.1]
    decide

/-- A full events-channel subscriber queue: 200 undelivered events. -/
def fullQueue : List TxEvent :=
  List.replicate 200 (TxEvent.transcript Role.user ("m".toList))

def fullSt : ServerState := { initialState with txSubscribers := [(0, fullQueue)] }

/-- C4, counterexample.  The claim says *every* live events subscriber
receives the stopped event and its stream then terminates.  A live
subscriber whose bounded queue (capacity 200) is full when the worker
exits has the stopped event dropped: its queue is unchanged, contains no
stopped event, and draining it never terminates the stream. -/
theorem C4_counterexample :
    (readerFinish fullSt).txSubscribers = [(0, fullQueue)] ∧
    stoppedEvent ∉ fullQueue ∧
    (runEventsLoop (fullQueue.map QSig.item)).2 = false := by
  refine ⟨by decide, by decide, by decide⟩

/-- C5: with the event loop live, `publish` (the fan-out step) is a
total function that touches every registered subscriber independently:
the registry keeps its length, and each subscriber's queue either gains
the item at the end (when below capacity) or is left unchanged (full
queue: the item is dropped for that subscriber only).  In particular the
producer never blocks or fails, and a full queue at one subscriber does
not affect any other subscriber's delivery. -/
theorem C5_thm {α : Type} (cap : Nat) (subs : List (Nat × List α)) (payload : α)
    (i : Nat) (s : Nat × List α) (hi : subs[i]? = some s) :
    (fan_out true cap subs payload).length = subs.length ∧
    (fan_out true cap subs payload)[i]? =
      some (s.1, if s.2.length < cap then s.2 ++ [payload] else s.2) := by
  constructor
  · simp [fan_out]
  · simp [fan_out, List.getElem?_map, hi, put_nowait]

/-- C5, witness: with capacity 1, subscriber 0's queue is full (item
dropped for it alone) while subscriber 1 still receives the item. -/
theorem C5_witness :
    (fan_out true 1 [(0, [5]), (1, ([] : List Nat))] 9).length = 2 ∧
    (fan_out true 1 [(0, [5]), (1, ([] : List Nat))] 9)[0]? = some (0, [5]) ∧
    (fan_out true 1 [(0, [5]), (1, ([] : List Nat))] 9)[1]? = some (1, [9]) := by
  refine ⟨(C5_thm 1 [(0, [5]), (1, ([] : List Nat))] 9 0 (0, [5]) rfl).1, ?_, ?_⟩
  · have h := (C5_thm 1 [(0, [5]), (1, ([] : List Nat))] 9 0 (0, [5]) rfl).2
    simpa using h
  · have h := (C5_thm 1 [(0, [5]), (1, ([] : List Nat))] 9 1 (1, []) rfl).2
    simpa using h

/-- C6: if a worker is already running, `start_agent` reports
AlreadyRunning and returns the state unchanged (no second spawn, no
buffer or registry change); otherwise it clears both history buffers and
both subscriber registries and installs exactly one newly spawned
running worker, returning its pid. -/
theorem C6_thm (st : ServerState) (config : AgentConfig) (newPid : Nat) :
    (procIsRunning st.agentProcess = true →
      start_agent st config newPid = (st, StartResult.alreadyRunning)) ∧
    (procIsRunning st.agentProcess = false →
      start_agent st config newPid =
        ({ st with
            logBuffer := [], txBuffer := [], logSubscribers := [],
            txSubscribers := [], agentProcess := some (ProcHandle.running newPid) },
         StartResult.started newPid)) := by
  constructor
  · intro h
    simp [start_agent, h]
  · intro h
    simp [start_agent, h]

def cfg0 : AgentConfig := ⟨[], [], []⟩

/-- A state with a running worker (pid 3). -/
def runningSt : ServerState :=
  { initialState with agentProcess := some (ProcHandle.running 3) }

/-- C6, witness: a second start while running is rejected with no state
change; a start while stopped resets and spawns pid 7. -/
theorem C6_witness :
    start_agent runningSt cfg0 7 = (runningSt, StartResult.alreadyRunning) ∧
    start_agent initialState cfg0 7 =
      ({ initialState with
          logBuffer := [], txBuffer := [], logSubscribers := [],
          txSubscribers := [], agentProcess := some (ProcHandle.running 7) },
       StartResult.started 7) :=
  ⟨(C6_thm runningSt cfg0 7).1 rfl, (C6_thm initialState cfg0 7).2 rfl⟩

/-- C7: when no worker is running, `stop_agent` reports "was not
running" and returns the state entirely unchanged — process handle,
both history buffers and both subscriber registries included
(idempotent no-op). -/
theorem C7_thm (st : ServerState) (h : procIsRunning st.agentProcess = false) :
    stop_agent st = (st, StopResult.wasNotRunning) := by
  simp [stop_agent, h]

/-- A state holding a handle to an already-exited worker. -/
def exitedSt : ServerState :=
  { initialState with
    agentProcess := some (ProcHandle.exited 3),
    logBuffer := ["old".toList],
    txBuffer := [TxEvent.transcript Role.user ("t".toList)],
    logSubscribers := [(0, [])], txSubscribers := [(1, [])] }

/-- C7, witness: stop on an exited worker leaves the populated state
untouched. -/
theorem C7_witness :
    stop_agent exitedSt = (exitedSt, StopResult.wasNotRunning) :=
  C7_thm exitedSt rfl

/-- C8: a line that is empty after stripping is discarded entirely —
the state is unchanged, so no event of any kind is produced; a line
carrying a transcript marker whose payload strips to empty leaves the
events history buffer and the events subscribers untouched (no
TranscriptEvent), for both the user and agent markers. -/
theorem C8_thm (st : ServerState) (raw : Line) :
    (rstripChars raw = [] → processLine st raw = st) ∧
    (∀ rest, splitAfterFirst markerUser (rstripChars raw) = some rest →
      stripChars rest = [] →
      (processLine st raw).txBuffer = st.txBuffer ∧
      (processLine st raw).txSubscribers = st.txSubscribers) ∧
    (∀ rest, splitAfterFirst markerUser (rstripChars raw) = none →
      splitAfterFirst markerAgent (rstripChars raw) = some rest →
      stripChars rest = [] →
      (processLine st raw).txBuffer = st.txBuffer ∧
      (processLine st raw).txSubscribers = st.txSubscribers) := by
  refine ⟨processLine_empty st raw, ?_, ?_⟩
  · intro rest h1 h2
    have hc : classifyTx (rstripChars raw) = none := by
      unfold classifyTx
      rw [h1]
      simp [h2]
    constructor
    · rw [processLine_txBuffer]
      unfold txAppend
      rw [hc]
      simp
    · rw [processLine_txSubscribers, hc]
  · intro rest h0 h1 h2
    have hc : classifyTx (rstripChars raw) = none := by
      unfold classifyTx
      rw [h0, h1]
      simp [h2]
    constructor
    · rw [processLine_txBuffer]
      unfold txAppend
      rw [hc]
      simp
    · rw [processLine_txSubscribers, hc]

def wsLine : Line := "   ".toList
def uxEmptyLine : Line := "TRANSCRIPT_USER:   ".toList

/-- C8, witness: a whitespace-only line changes nothing at all, and a
user-marker line with whitespace-only payload produces no transcript
event. -/
theorem C8_witness :
    processLine initialState wsLine = initialState ∧
    (processLine initialState uxEmptyLine).txBuffer = [] := by
  constructor
  · exact (C8_thm initialState wsLine).1 (by decide)
  · have h := ((C8_thm initialState uxEmptyLine).2.1 [] (by decide) (by decide)).1
    simpa using h

theorem count_ids_erase {α : Type} (qid : Nat) (subs : List (Nat × List α))
    (h : (subs.map Prod.fst).count qid ≤ 1) :
    qid ∉ (unsubscribeFirst qid subs).map Prod.fst := by
  induction subs with
  | nil => simp [unsubscribeFirst]
  | cons s rest ih =>
    by_cases hs : s.1 = qid
    · have hc : (rest.map Prod.fst).count qid = 0 := by
        rw [List.map_cons, List.count_cons] at h
        simp only [hs, beq_self_eq_true, if_true] at h
        omega
      have he : unsubscribeFirst qid (s :: rest) = rest := by
        simp [unsubscribeFirst, List.eraseP_cons, hs]
      rw [he]
      exact List.count_eq_zero.mp hc
    · have hbe : (s.1 == qid) = false := by simp [hs]
      have h' : (rest.map Prod.fst).count qid ≤ 1 := by
        rw [List.map_cons, List.count_cons, hbe] at h
        simpa using h
      have he : unsubscribeFirst qid (s :: rest) = s :: unsubscribeFirst qid rest := by
        simp [unsubscribeFirst, List.eraseP_cons, hbe]
      rw [he, List.map_cons, List.mem_cons]
      push_neg
      exact ⟨fun hq => hs hq.symm, ih h'⟩

/-- C9: for every exit reason (dequeued terminal item, client
disconnect, or stream error) the `finally` block removes the stream's
queue from the channel's subscriber registry — a queue registered at
most once is never left registered after the stream finishes, on either
channel.  Moreover there is exactly one termination path: an idle
timeout only emits a keep-alive ping and continues both loops, and each
loop terminates exactly when its terminal item (the `None` sentinel for
logs, a stopped state event for events) is dequeued. -/
theorem C9_thm (reason : ExitReason) (st : ServerState) (qid : Nat)
    (hlog : (st.logSubscribers.map Prod.fst).count qid ≤ 1)
    (htx : (st.txSubscribers.map Prod.fst).count qid ≤ 1) :
    qid ∉ ((streamLogsFinish reason st qid).logSubscribers.map Prod.fst) ∧
    qid ∉ ((streamEventsFinish reason st qid).txSubscribers.map Prod.fst) ∧
    (∀ sigs : List (QSig (Option Line)),
      runLogsLoop (QSig.timeout :: sigs)
        = (LogOut.ping :: (runLogsLoop sigs).1, (runLogsLoop sigs).2)) ∧
    (∀ sigs : List (QSig TxEvent),
      runEventsLoop (QSig.timeout :: sigs)
        = (EvOut.ping :: (runEventsLoop sigs).1, (runEventsLoop sigs).2)) ∧
    (∀ sigs : List (QSig (Option Line)), (runLogsLoop sigs).2 = hasEndSig sigs) ∧
    (∀ sigs : List (QSig TxEvent), (runEventsLoop sigs).2 = hasStopSig sigs) :=
  ⟨count_ids_erase qid st.logSubscribers hlog,
   count_ids_erase qid st.txSubscribers htx,
   fun _ => rfl, fun _ => rfl,
   runLogsLoop_terminates, runEventsLoop_terminates⟩

/-- A state with subscriber 5 registered once on each channel. -/
def st9 : ServerState :=
  { initialState with logSubscribers := [(5, [])], txSubscribers := [(5, [])] }

/-- C9, witness: after a disconnect-path finish, queue 5 is gone from
both registries. -/
theorem C9_witness :
    5 ∉ ((streamLogsFinish ExitReason.clientDisconnect st9 5).logSubscribers.map
      Prod.fst) ∧
    5 ∉ ((streamEventsFinish ExitReason.clientDisconnect st9 5).txSubscribers.map
      Prod.fst) := by
  have h := C9_thm ExitReason.clientDisconnect st9 5 (by decide) (by decide)
  exact ⟨h.1, h.2.1⟩

/-- Is an event a transcript event? -/
def isTranscriptEv : TxEvent → Bool
  | TxEvent.transcript _ _ => true
  | TxEvent.state _ => false

theorem txAppend_transcripts (line : Line) :
    (txAppend line).all isTranscriptEv = true := by
  unfold txAppend
  rcases classifyTx line with _ | e
  · rfl
  · rcases e with ⟨r, t⟩ | s <;> rfl

theorem foldl_txBuffer_transcripts (lines : List Line) :
    ∀ st : ServerState, st.txBuffer.all isTranscriptEv = true →
    ((lines.foldl processLine st).txBuffer.all isTranscriptEv) = true := by
  induction lines with
  | nil => intro st h; exact h
  | cons l rest ih =>
    intro st h
    rw [List.foldl_cons]
    apply ih
    rw [processLine_txBuffer, List.all_append, h, txAppend_transcripts]
    rfl

/-- C10: over any worker output, state events never reach the events
history buffer: the terminal stopped publication leaves `tx_buffer`
untouched, every entry of `tx_buffer` is a transcript event, and hence
the backlog replayed to any later events subscriber consists of
transcript events only (the stopped state event, in particular, is not a
transcript event). -/
theorem C10_thm (rawLines : List Line) :
    (reader_thread initialState rawLines).txBuffer
      = (rawLines.foldl processLine initialState).txBuffer ∧
    ((subscribeEvents (reader_thread initialState rawLines) 0).2).all isTranscriptEv
      = true ∧
    isTranscriptEv stoppedEvent = false := by
  refine ⟨rfl, ?_, rfl⟩
  show (rawLines.foldl processLine initialState).txBuffer.all isTranscriptEv = true
  exact foldl_txBuffer_transcripts rawLines initialState rfl
